import Mathlib

/-!
Shallow embedding of `src/web_app.py` (quiz/flashcard generator web app).

Strings are modelled as `List Char` (Python strings are sequences of code
points).  Python's `str.strip`, `str.replace`, `str.find`, `str.rfind`,
slicing, and `str.lower` are embedded below; only the ASCII fragment of
whitespace and case conversion is modelled, which is all the program's
logic at issue exercises.

The external HTTP completion call and `json.loads` are external
collaborators: functions that consume their results take the parsed value
(or the raw completion text) as an explicit argument.
-/

set_option maxHeartbeats 1000000

namespace WebApp

/-- ASCII whitespace stripped by Python `str.strip()`:
space, tab, newline, carriage return, vertical tab, form feed. -/
def isPySpace (c : Char) : Bool :=
  c == ' ' || c == '\t' || c == '\n' || c == '\r' || c == '\x0b' || c == '\x0c'

/-- Python `s.strip()`: drop leading and trailing whitespace. -/
def pyStrip (s : List Char) : List Char :=
  ((s.dropWhile isPySpace).reverse.dropWhile isPySpace).reverse

/-- Does `pat` occur as a prefix of `s`? -/
def listStarts : List Char → List Char → Bool
  | [], _ => true
  | _ :: _, [] => false
  | p :: ps, c :: cs => p == c && listStarts ps cs

/-- Python `pat in s` for strings: does `pat` occur as a contiguous
substring of `s`? -/
def containsSub (pat : List Char) : List Char → Bool
  | [] => listStarts pat []
  | c :: cs => listStarts pat (c :: cs) || containsSub pat cs

/-- Fuelled worker for Python `s.replace(pat, rep)`: left-to-right,
non-overlapping replacement of every occurrence.  Each step consumes at
least one character of `s`, so fuel `s.length` never runs out. -/
def pyReplaceFuel (pat rep : List Char) : Nat → List Char → List Char
  | _, [] => []
  | 0, s => s
  | Nat.succ fuel, c :: cs =>
    if pat ≠ [] ∧ listStarts pat (c :: cs) = true then
      rep ++ pyReplaceFuel pat rep fuel (cs.drop (pat.length - 1))
    else
      c :: pyReplaceFuel pat rep fuel cs

/-- Python `s.replace(pat, rep)` (for the non-empty patterns the source
uses). -/
def pyReplace (pat rep s : List Char) : List Char :=
  pyReplaceFuel pat rep s.length s

/-- Python `s.find(c)` for a single-character needle: index of the first
occurrence, or `-1` when absent. -/
def pyFindChar (c : Char) : List Char → Int
  | [] => -1
  | a :: as =>
    if a = c then 0
    else if pyFindChar c as = -1 then -1
    else pyFindChar c as + 1

/-- Python `s.rfind(c)` for a single-character needle: index of the last
occurrence, or `-1` when absent. -/
def pyRfindChar (c : Char) : List Char → Int
  | [] => -1
  | a :: as =>
    if pyRfindChar c as = -1 then (if a = c then 0 else -1)
    else pyRfindChar c as + 1

/-- The markdown fence marker stripped by `clean_gemini_json`. -/
def fence : List Char := "```".toList

/-- The JSON-tagged fence marker stripped first by `clean_gemini_json`. -/
def fenceJson : List Char := "```json".toList

/-- First phase of `clean_gemini_json` (web_app.py lines 49-53):
`text = text.strip()`, then, when a fence marker occurs,
`text = text.replace("```json", "").replace("```", "")`. -/
def cleanPre (input : List Char) : List Char :=
  if containsSub fence (pyStrip input) then
    pyReplace fence [] (pyReplace fenceJson [] (pyStrip input))
  else pyStrip input

/-- Second phase of `clean_gemini_json` (web_app.py lines 56-70): the
`(start, end)` pair chosen by the object/array decision, `-1` marking "not
found".  Object when `{` occurs and (`[` absent or `{` strictly before
`[`); else array when `[` occurs. -/
def payloadBounds (t : List Char) : Int × Int :=
  if pyFindChar '\x7b' t ≠ -1 ∧
      (pyFindChar '[' t = -1 ∨ pyFindChar '\x7b' t < pyFindChar '[' t) then
    (pyFindChar '\x7b' t, pyRfindChar '\x7d' t)
  else if pyFindChar '[' t ≠ -1 then
    (pyFindChar '[' t, pyRfindChar ']' t)
  else (-1, -1)

/-- `clean_gemini_json` (web_app.py lines 43-75): strip, remove fences,
then slice `text[start:end+1]` when both bounds were found, else return
the processed text. -/
def clean_gemini_json (input : List Char) : List Char :=
  if (payloadBounds (cleanPre input)).1 ≠ -1 ∧ (payloadBounds (cleanPre input)).2 ≠ -1 then
    ((cleanPre input).take ((payloadBounds (cleanPre input)).2.toNat + 1)).drop
      (payloadBounds (cleanPre input)).1.toNat
  else cleanPre input

/-- `desired_mcq = math.ceil(num_questions * 0.5)` (web_app.py line 83).
`0.5` is exact in binary floating point and the float product is exact for
every count the route admits, so the real-valued ceiling is the faithful
value. -/
def desired_mcq (count : Nat) : Nat := Nat.ceil ((count : ℚ) * (1 / 2 : ℚ))

/-- `desired_open = num_questions - desired_mcq` (web_app.py line 84). -/
def desired_open (count : Nat) : Nat := count - desired_mcq count

/-- JSON values as produced by `json.loads` (numbers collapsed to `Int`:
no claim distinguishes numeric subtypes; object keys are unique as in a
Python dict). -/
inductive Json where
  | null : Json
  | bool (b : Bool) : Json
  | num (n : Int) : Json
  | str (s : List Char) : Json
  | arr (xs : List Json) : Json
  | obj (kvs : List (List Char × Json)) : Json

/-- Python-level exceptions arising inside the `try` block of
`generate_quiz_logic` after a successful HTTP call. -/
inductive PyErr where
  /-- `json.loads` raised (invalid JSON). -/
  | jsonDecodeError : PyErr
  /-- the explicit `RuntimeError("Formato JSON imprevisto (manca chiave 'questions')")`. -/
  | unexpectedFormat : PyErr
  /-- `TypeError` from `"questions" in parsed` on a non-container, or from
  indexing a string with a string. -/
  | typeError : PyErr
deriving DecidableEq

/-- Errors surfaced by `generate_quiz_logic`. -/
inductive GenErr where
  /-- the `ValueError` raised when `num_questions <= 0` (line 80). -/
  | invalidArgument : GenErr
  /-- the wrapping `RuntimeError(f"Errore parsing Gemini: {e}")` (line 143). -/
  | generationError (e : PyErr) : GenErr
deriving DecidableEq

/-- The dict key the generator looks for. -/
def qKey : List Char := "questions".toList

/-- Python dict lookup `kvs["questions"]` (keys unique). -/
def objGet (k : List Char) : List (List Char × Json) → Option Json
  | [] => none
  | kv :: rest => if kv.1 == k then some kv.2 else objGet k rest

/-- Shape dispatch of `generate_quiz_logic` (web_app.py lines 133-138):
`isinstance(parsed, list)` accepts a bare array; `"questions" in parsed`
then `parsed["questions"]` accepts a dict carrying the key; a dict without
the key hits the explicit `RuntimeError`.  Per Python semantics, `in` on a
string is a substring test (indexing then raises `TypeError`), and `in`
on a number / bool / `None` raises `TypeError` immediately. -/
def quiz_shape (parsed : Json) : Except PyErr Json :=
  match parsed with
  | Json.arr xs => Except.ok (Json.arr xs)
  | Json.obj kvs =>
    match objGet qKey kvs with
    | some v => Except.ok v
    | none => Except.error PyErr.unexpectedFormat
  | Json.str s =>
    if containsSub qKey s then Except.error PyErr.typeError
    else Except.error PyErr.unexpectedFormat
  | _ => Except.error PyErr.typeError

/-- `generate_quiz_logic` (web_app.py lines 77-143) with the external
pieces made explicit: `parsed` is the outcome of `json.loads` on the
extracted completion text (`Except.error` = the parse raised).  The
`num_questions <= 0` check raises `ValueError` before the prompt is built
and before the HTTP call, hence before `parsed` is consulted.  Every
exception inside the `try` is re-raised wrapped as `generationError`.
`program_text` only enters the prompt. -/
def generate_quiz_logic (program_text : List Char) (num_questions : Int)
    (parsed : Except PyErr Json) : Except GenErr Json :=
  if num_questions ≤ 0 then Except.error GenErr.invalidArgument
  else
    match parsed with
    | Except.error e => Except.error (GenErr.generationError e)
    | Except.ok p =>
      match quiz_shape p with
      | Except.ok v => Except.ok v
      | Except.error e => Except.error (GenErr.generationError e)

/-- Question type: `"mcq"` or `"open"` (`open` is a Lean keyword, hence
`openq`). -/
inductive QType where
  | mcq : QType
  | openq : QType
deriving DecidableEq

/-- A question as the grader consumes it (web_app.py lines 239-263). -/
structure Question where
  text : List Char
  qtype : QType
  options : Option (List (List Char))
  answer : List Char
deriving DecidableEq

/-- Per-question outcome (`result` in the source). -/
inductive Outcome where
  | correct : Outcome
  | wrong : Outcome
  | blank : Outcome
deriving DecidableEq

/-- One entry of `details` (web_app.py lines 258-263). -/
structure Detail where
  text : List Char
  user_answer : List Char
  correct_answer : List Char
  result : Outcome
deriving DecidableEq

/-- `request.form.get(f"q{i}", "").strip()` (line 240): the submission is
a partial map from question index to raw answer; a missing entry is the
empty string. -/
def lookupAns (form : Nat → Option (List Char)) (i : Nat) : List Char :=
  pyStrip ((form i).getD [])

/-- The outcome assigned to one question given the already-trimmed answer
(web_app.py lines 241-256): empty → blank; mcq → exact match; open →
case-insensitive match (Python `str.lower`, ASCII fragment). -/
def outcomeOf (q : Question) (ans : List Char) : Outcome :=
  if ans = [] then Outcome.blank
  else
    if (match q.qtype with
        | QType.mcq => ans == q.answer
        | QType.openq => ans.map Char.toLower == q.answer.map Char.toLower) then
      Outcome.correct
    else Outcome.wrong

/-- The `details` entry appended for one question (lines 258-263). -/
def mkDetail (q : Question) (ans : List Char) : Detail :=
  ⟨q.text, ans, q.answer, outcomeOf q ans⟩

/-- Accumulated counters of the grading loop.  The float score is carried
exactly in tenths (`+1.0` = `+10`, `-0.1` = `-1`); accumulating ±1.0/±0.1
in IEEE doubles stays within 10⁻¹³ of this one-decimal value, so whenever
the exact value is nonzero (distance ≥ 0.005 from any rounding boundary,
sign stable at magnitude ≥ 0.1) the two-decimal formatting below matches
the source's `f"\x7bscore:.2f\x7d"` exactly; the one divergent corner is
a mixed submission whose exact score is 0, where the float accumulation
can come out as a tiny negative that CPython renders `-0.00`. -/
structure Tally where
  correct : Nat
  wrong : Nat
  blank : Nat
  scoreTenths : Int
  details : List Detail
deriving DecidableEq

/-- Update the counters, score and details for one outcome
(web_app.py lines 244-263). -/
def applyOutcome (d : Detail) (t : Tally) : Tally :=
  match d.result with
  | Outcome.correct => ⟨t.correct + 1, t.wrong, t.blank, t.scoreTenths + 10, d :: t.details⟩
  | Outcome.wrong => ⟨t.correct, t.wrong + 1, t.blank, t.scoreTenths - 1, d :: t.details⟩
  | Outcome.blank => ⟨t.correct, t.wrong, t.blank + 1, t.scoreTenths, d :: t.details⟩

/-- The `for i, q in enumerate(questions)` loop of `submit_quiz`
(web_app.py lines 239-263), processing from index `i` on. -/
def gradeLoop (form : Nat → Option (List Char)) : Nat → List Question → Tally
  | _, [] => ⟨0, 0, 0, 0, []⟩
  | i, q :: rest =>
    applyOutcome (mkDetail q (lookupAns form i)) (gradeLoop form (i + 1) rest)

/-- Python `f"{score:.2f}"` for the exact score `t/10` (tenths): an
optional minus sign, the integer part, a dot, the tenths digit, and a
trailing zero hundredths digit. -/
def formatScore (t : Int) : List Char :=
  (if t < 0 then ['-'] else []) ++
    Nat.toDigits 10 (t.natAbs / 10) ++ '.' :: Nat.toDigits 10 (t.natAbs % 10) ++ ['0']

/-- The values `submit_quiz` hands to `result.html` (web_app.py line 266). -/
structure Result where
  total : Nat
  correct : Nat
  wrong : Nat
  blank : Nat
  score : List Char
  details : List Detail
deriving DecidableEq

/-- `submit_quiz` (web_app.py lines 229-266) given the session's question
list and the posted form. -/
def submit_quiz (questions : List Question) (form : Nat → Option (List Char)) : Result :=
  ⟨questions.length,
   (gradeLoop form 0 questions).correct,
   (gradeLoop form 0 questions).wrong,
   (gradeLoop form 0 questions).blank,
   formatScore (gradeLoop form 0 questions).scoreTenths,
   (gradeLoop form 0 questions).details⟩

/-- The Deck topic label (web_app.py line 202):
`program_text[:50].replace("\n", " ") + "..."`. -/
def deck_topic (program_text : List Char) : List Char :=
  pyReplace ('\n' :: []) (' ' :: []) (program_text.take 50) ++ "...".toList

/-- Example mcq question of the spec's grading property (answer "A"). -/
def qMcqA : Question :=
  ⟨"Domanda".toList, QType.mcq,
   some ("A".toList :: "B".toList :: "C".toList :: "D".toList :: []), "A".toList⟩

/-- Example open question of the spec's grading property (answer "Paris"). -/
def qOpenParis : Question :=
  ⟨"Capitale".toList, QType.openq, none, "Paris".toList⟩

/-- Submission entering " a " for question 0. -/
def formLowerA : Nat → Option (List Char) :=
  fun i => if i = 0 then some " a ".toList else none

/-- Submission entering " paris " for question 0. -/
def formSpaceParis : Nat → Option (List Char) :=
  fun i => if i = 0 then some " paris ".toList else none

/-- Three questions for the spec's scoring example. -/
def qs3 : List Question :=
  ⟨"Q1".toList, QType.mcq, some ("A".toList :: []), "A".toList⟩ ::
  ⟨"Q2".toList, QType.mcq, some ("B".toList :: []), "B".toList⟩ ::
  ⟨"Q3".toList, QType.openq, none, "C".toList⟩ :: []

/-- Submission grading [correct, wrong, blank] against `qs3`. -/
def form3 : Nat → Option (List Char) :=
  fun i => if i = 0 then some "A".toList else if i = 1 then some "X".toList else some []

/-- Submission answering question 0 wrongly ("B" against answer "A"). -/
def formB : Nat → Option (List Char) :=
  fun i => if i = 0 then some "B".toList else none

end WebApp

namespace WebApp

theorem pyFindChar_ge (c : Char) (s : List Char) : -1 ≤ pyFindChar c s := by
  induction s with
  | nil => simp [pyFindChar]
  | cons a as ih =>
    simp only [pyFindChar]
    split_ifs <;> omega

theorem pyFindChar_not_mem (c : Char) (s : List Char) (h : c ∉ s) : pyFindChar c s = -1 := by
  induction s with
  | nil => rfl
  | cons a as ih =>
    simp only [List.mem_cons, not_or] at h
    simp only [pyFindChar]
    rw [if_neg (fun hac => h.1 hac.symm), ih h.2, if_pos rfl]

theorem pyFindChar_append_first (c : Char) (a b : List Char) (h : c ∉ a) :
    pyFindChar c (a ++ c :: b) = a.length := by
  induction a with
  | nil => simp [pyFindChar]
  | cons x xs ih =>
    simp only [List.mem_cons, not_or] at h
    simp only [List.cons_append, pyFindChar, List.append_eq]
    rw [if_neg (fun hxc => h.1 hxc.symm), ih h.2, if_neg (by omega)]
    simp only [List.length_cons]
    push_cast
    ring

theorem pyFindChar_append_gt (x y : Char) (hxy : x ≠ y) (a b : List Char) (h : x ∉ a) :
    pyFindChar x (a ++ y :: b) = -1 ∨ (a.length : Int) < pyFindChar x (a ++ y :: b) := by
  induction a with
  | nil =>
    simp only [List.nil_append, pyFindChar, List.length_nil]
    rw [if_neg (fun hyx => hxy hyx.symm)]
    by_cases hb : pyFindChar x b = -1
    · rw [if_pos hb]
      exact Or.inl rfl
    · rw [if_neg hb]
      right
      have := pyFindChar_ge x b
      push_cast
      omega
  | cons z zs ih =>
    simp only [List.mem_cons, not_or] at h
    simp only [List.cons_append, pyFindChar, List.append_eq]
    rw [if_neg (fun hzx => h.1 hzx.symm)]
    rcases ih h.2 with h1 | h1
    · rw [if_pos h1]
      exact Or.inl rfl
    · rw [if_neg (by omega)]
      right
      simp only [List.length_cons]
      push_cast
      omega

theorem pyRfindChar_not_mem (c : Char) (s : List Char) (h : c ∉ s) : pyRfindChar c s = -1 := by
  induction s with
  | nil => rfl
  | cons a as ih =>
    simp only [List.mem_cons, not_or] at h
    simp only [pyRfindChar]
    rw [ih h.2, if_pos rfl, if_neg (fun hac => h.1 hac.symm)]

theorem pyRfindChar_append_last (c : Char) (a b : List Char) (h : c ∉ b) :
    pyRfindChar c (a ++ c :: b) = a.length := by
  induction a with
  | nil =>
    simp only [List.nil_append, pyRfindChar, List.length_nil]
    rw [pyRfindChar_not_mem c b h]
    simp
  | cons z zs ih =>
    simp only [List.cons_append, pyRfindChar, List.append_eq]
    rw [ih, if_neg (by omega)]
    simp only [List.length_cons]
    push_cast
    ring

theorem payloadBounds_object (t a b a2 b2 : List Char)
    (h1 : t = a ++ '\x7b' :: b) (h2 : '\x7b' ∉ a) (h3 : '[' ∉ a)
    (h4 : t = a2 ++ '\x7d' :: b2) (h5 : '\x7d' ∉ b2) :
    payloadBounds t = ((a.length : Int), (a2.length : Int)) := by
  have hf : pyFindChar '\x7b' t = a.length := by
    rw [h1]; exact pyFindChar_append_first _ _ _ h2
  have hr : pyRfindChar '\x7d' t = a2.length := by
    rw [h4]; exact pyRfindChar_append_last _ _ _ h5
  have hbr : pyFindChar '[' t = -1 ∨ (a.length : Int) < pyFindChar '[' t := by
    rw [h1]; exact pyFindChar_append_gt '[' '\x7b' (by decide) a b h3
  unfold payloadBounds
  rw [hf, hr, if_pos]
  refine ⟨by omega, ?_⟩
  rcases hbr with h | h
  · exact Or.inl h
  · exact Or.inr h

theorem payloadBounds_array (t a b a2 b2 : List Char)
    (h1 : t = a ++ '[' :: b) (h2 : '[' ∉ a) (h3 : '\x7b' ∉ a)
    (h4 : t = a2 ++ ']' :: b2) (h5 : ']' ∉ b2) :
    payloadBounds t = ((a.length : Int), (a2.length : Int)) := by
  have hf : pyFindChar '[' t = a.length := by
    rw [h1]; exact pyFindChar_append_first _ _ _ h2
  have hr : pyRfindChar ']' t = a2.length := by
    rw [h4]; exact pyRfindChar_append_last _ _ _ h5
  have hbr : pyFindChar '\x7b' t = -1 ∨ (a.length : Int) < pyFindChar '\x7b' t := by
    rw [h1]; exact pyFindChar_append_gt '\x7b' '[' (by decide) a b h3
  have hobj : ¬(pyFindChar '\x7b' t ≠ -1 ∧
      (pyFindChar '[' t = -1 ∨ pyFindChar '\x7b' t < pyFindChar '[' t)) := by
    rw [hf]
    rintro ⟨hne, hd | hd⟩
    · omega
    · rcases hbr with h | h <;> omega
  unfold payloadBounds
  rw [if_neg hobj, hf, hr, if_pos (by omega)]

theorem clean_gemini_json_object (s a b a2 b2 : List Char)
    (h1 : cleanPre s = a ++ '\x7b' :: b) (h2 : '\x7b' ∉ a) (h3 : '[' ∉ a)
    (h4 : cleanPre s = a2 ++ '\x7d' :: b2) (h5 : '\x7d' ∉ b2) :
    clean_gemini_json s = ((cleanPre s).take (a2.length + 1)).drop a.length := by
  have hp := payloadBounds_object (cleanPre s) a b a2 b2 h1 h2 h3 h4 h5
  unfold clean_gemini_json
  rw [hp, if_pos ⟨by omega, by omega⟩]
  simp

theorem clean_gemini_json_array (s a b a2 b2 : List Char)
    (h1 : cleanPre s = a ++ '[' :: b) (h2 : '[' ∉ a) (h3 : '\x7b' ∉ a)
    (h4 : cleanPre s = a2 ++ ']' :: b2) (h5 : ']' ∉ b2) :
    clean_gemini_json s = ((cleanPre s).take (a2.length + 1)).drop a.length := by
  have hp := payloadBounds_array (cleanPre s) a b a2 b2 h1 h2 h3 h4 h5
  unfold clean_gemini_json
  rw [hp, if_pos ⟨by omega, by omega⟩]
  simp

theorem gradeLoop_counts (form : Nat → Option (List Char)) (qs : List Question) :
    ∀ i, (gradeLoop form i qs).correct + (gradeLoop form i qs).wrong + (gradeLoop form i qs).blank
      = qs.length := by
  induction qs with
  | nil => intro i; rfl
  | cons q rest ih =>
    intro i
    have h := ih (i + 1)
    simp only [gradeLoop, List.length_cons]
    cases hoc : (mkDetail q (lookupAns form i)).result <;>
      simp only [applyOutcome, hoc] <;> omega

theorem gradeLoop_score (form : Nat → Option (List Char)) (qs : List Question) :
    ∀ i, (gradeLoop form i qs).scoreTenths
      = 10 * ((gradeLoop form i qs).correct : Int) - ((gradeLoop form i qs).wrong : Int) := by
  induction qs with
  | nil => intro i; rfl
  | cons q rest ih =>
    intro i
    have h := ih (i + 1)
    simp only [gradeLoop]
    cases hoc : (mkDetail q (lookupAns form i)).result <;>
      simp only [applyOutcome, hoc] <;> push_cast <;> omega

theorem gradeLoop_details_len (form : Nat → Option (List Char)) (qs : List Question) :
    ∀ i, (gradeLoop form i qs).details.length = qs.length := by
  induction qs with
  | nil => intro i; rfl
  | cons q rest ih =>
    intro i
    have h := ih (i + 1)
    simp only [gradeLoop, List.length_cons]
    cases hoc : (mkDetail q (lookupAns form i)).result <;>
      simp only [applyOutcome, hoc, List.length_cons] <;> omega

theorem gradeLoop_details_get (form : Nat → Option (List Char)) (qs : List Question) :
    ∀ i j q, qs.get? j = some q →
      (gradeLoop form i qs).details.get? j = some (mkDetail q (lookupAns form (i + j))) := by
  induction qs with
  | nil => intro i j q h; simp at h
  | cons q0 rest ih =>
    intro i j q h
    cases j with
    | zero =>
      simp only [List.get?] at h
      cases h
      cases hoc : (mkDetail q0 (lookupAns form i)).result <;>
        simp only [gradeLoop, applyOutcome, hoc, List.get?, Nat.add_zero]
    | succ j' =>
      simp only [List.get?] at h
      have h2 := ih (i + 1) j' q h
      have harith : i + 1 + j' = i + (j' + 1) := by omega
      rw [harith] at h2
      cases hoc : (mkDetail q0 (lookupAns form i)).result <;>
        simp only [gradeLoop, applyOutcome, hoc, List.get?] <;> exact h2

theorem outcomeOf_nil (q : Question) : outcomeOf q [] = Outcome.blank := by
  simp [outcomeOf]

theorem gradeLoop_all_blank (form : Nat → Option (List Char)) (qs : List Question) :
    ∀ i, (∀ j, j < qs.length → lookupAns form (i + j) = []) →
      (gradeLoop form i qs).correct = 0 ∧ (gradeLoop form i qs).wrong = 0 ∧
      (gradeLoop form i qs).blank = qs.length ∧ (gradeLoop form i qs).scoreTenths = 0 := by
  induction qs with
  | nil => intro i h; exact ⟨rfl, rfl, rfl, rfl⟩
  | cons q rest ih =>
    intro i h
    have h0 : lookupAns form i = [] := by
      have := h 0 (by simp)
      simpa using this
    have hrest : ∀ j, j < rest.length → lookupAns form (i + 1 + j) = [] := by
      intro j hj
      have := h (j + 1) (by simp only [List.length_cons]; omega)
      have harith : i + (j + 1) = i + 1 + j := by omega
      rwa [harith] at this
    obtain ⟨hc, hw, hb, hs⟩ := ih (i + 1) hrest
    have hoc : (mkDetail q (lookupAns form i)).result = Outcome.blank := by
      simp [mkDetail, h0, outcomeOf_nil]
    simp [gradeLoop, applyOutcome, hoc, hc, hw, hb, hs]

theorem pyReplaceFuel_single (c d : Char) :
    ∀ (s : List Char) (fuel : Nat), s.length ≤ fuel →
      pyReplaceFuel (c :: []) (d :: []) fuel s = s.map (fun x => if x = c then d else x) := by
  intro s
  induction s with
  | nil => intro fuel h; cases fuel <;> rfl
  | cons x xs ih =>
    intro fuel h
    cases fuel with
    | zero => simp at h
    | succ f =>
      simp only [pyReplaceFuel, List.length_cons] at h ⊢
      by_cases hxc : x = c
      · rw [if_pos ⟨by simp, by simp [listStarts, hxc]⟩]
        simp only [List.length_nil, Nat.zero_add, Nat.add_sub_cancel, Nat.sub_self, List.drop_zero]
        rw [ih f (by omega)]
        simp [hxc]
      · rw [if_neg]
        · simp only [List.map_cons]
          rw [if_neg hxc, ih f (by omega)]
        · rintro ⟨-, hstart⟩
          simp only [listStarts, listStarts.eq_1, Bool.and_true, beq_iff_eq] at hstart
          exact hxc hstart.symm

theorem pyReplace_single (c d : Char) (s : List Char) :
    pyReplace (c :: []) (d :: []) s = s.map (fun x => if x = c then d else x) :=
  pyReplaceFuel_single c d s s.length (le_refl _)

theorem outcomeOf_mcq (q : Question) (ans : List Char)
    (hq : q.qtype = QType.mcq) (hne : ans ≠ []) :
    outcomeOf q ans = if ans = q.answer then Outcome.correct else Outcome.wrong := by
  unfold outcomeOf
  rw [if_neg hne, hq]
  by_cases h : ans = q.answer <;> simp [h]

theorem outcomeOf_openq (q : Question) (ans : List Char)
    (hq : q.qtype = QType.openq) (hne : ans ≠ []) :
    outcomeOf q ans =
      if ans.map Char.toLower = q.answer.map Char.toLower then Outcome.correct
      else Outcome.wrong := by
  unfold outcomeOf
  rw [if_neg hne, hq]
  by_cases h : ans.map Char.toLower = q.answer.map Char.toLower <;> simp [h]

theorem ceil_half (n : ℕ) : Nat.ceil ((n : ℚ) * (1 / 2 : ℚ)) = (n + 1) / 2 := by
  rcases Nat.even_or_odd n with ⟨k, hk⟩ | ⟨k, hk⟩
  · subst hk
    have h1 : ((k + k : ℕ) : ℚ) * (1 / 2 : ℚ) = (k : ℚ) := by push_cast; ring
    rw [h1, Nat.ceil_natCast]
    omega
  · subst hk
    have h1 : ((2 * k + 1 : ℕ) : ℚ) * (1 / 2 : ℚ) = (k : ℚ) + 1 / 2 := by push_cast; ring
    have h2 : (2 * k + 1 + 1) / 2 = k + 1 := by omega
    rw [h1, h2, Nat.ceil_eq_iff (by omega : k + 1 ≠ 0)]
    constructor
    · push_cast; norm_num
    · push_cast; norm_num

/-- C1: for every question list and submission the grader looks up the
answer for index `i` and trims it (a missing entry is the empty string);
the recorded outcome is `blank` when the trimmed answer is empty, else for
an `mcq` question `correct` exactly when the trimmed answer equals the
question's answer case-sensitively (`wrong` otherwise), and for an `open`
question `correct` exactly when they agree case-insensitively (`wrong`
otherwise).  In particular an mcq with answer "A" and submission " a "
grades `wrong`, and an open question with answer "Paris" and submission
" paris " grades `correct`. -/
theorem grading_outcomes :
    (∀ qs form i q, qs.get? i = some q →
        (submit_quiz qs form).details.get? i = some (mkDetail q (lookupAns form i)))
    ∧ (∀ (form : Nat → Option (List Char)) i, form i = none → lookupAns form i = [])
    ∧ (∀ (q : Question) (raw : List Char), pyStrip raw = [] →
        outcomeOf q (pyStrip raw) = Outcome.blank)
    ∧ (∀ (q : Question) (raw : List Char), pyStrip raw ≠ [] → q.qtype = QType.mcq →
        ((outcomeOf q (pyStrip raw) = Outcome.correct ↔ pyStrip raw = q.answer)
          ∧ (outcomeOf q (pyStrip raw) = Outcome.wrong ↔ ¬pyStrip raw = q.answer)))
    ∧ (∀ (q : Question) (raw : List Char), pyStrip raw ≠ [] → q.qtype = QType.openq →
        ((outcomeOf q (pyStrip raw) = Outcome.correct ↔
            (pyStrip raw).map Char.toLower = q.answer.map Char.toLower)
          ∧ (outcomeOf q (pyStrip raw) = Outcome.wrong ↔
            ¬(pyStrip raw).map Char.toLower = q.answer.map Char.toLower)))
    ∧ (submit_quiz (qMcqA :: []) formLowerA).details.map Detail.result = Outcome.wrong :: []
    ∧ (submit_quiz (qOpenParis :: []) formSpaceParis).details.map Detail.result
        = Outcome.correct :: [] := by
  refine ⟨?_, ?_, ?_, ?_, ?_, by decide, by decide⟩
  · intro qs form i q h
    have h2 := gradeLoop_details_get form qs 0 i q h
    simpa [submit_quiz] using h2
  · intro form i h
    unfold lookupAns
    rw [h]
    rfl
  · intro q raw h
    rw [h]
    exact outcomeOf_nil q
  · intro q raw hne hq
    rw [outcomeOf_mcq q _ hq hne]
    by_cases h : pyStrip raw = q.answer <;> simp [h]
  · intro q raw hne hq
    rw [outcomeOf_openq q _ hq hne]
    by_cases h : (pyStrip raw).map Char.toLower = q.answer.map Char.toLower <;> simp [h]

theorem grading_outcomes_witness :
    (submit_quiz (qMcqA :: []) formLowerA).details.get? 0
      = some (mkDetail qMcqA (lookupAns formLowerA 0)) :=
  grading_outcomes.1 (qMcqA :: []) formLowerA 0 qMcqA rfl

/-- C2: after stripping and fence removal, the extractor decides the
payload is an object when `{` occurs with no `[` in front of it (that is,
`[` is absent or the first `{` precedes the first `[`), returning the
slice from the first `{` to the last `}` inclusive; otherwise, when `[`
is present, it decides array and returns the slice from the first `[` to
the last `]` inclusive.  The decompositions `a ++ c :: b` with `c ∉ a`
(resp. `c ∉ b`) characterise the first (resp. last) occurrence of `c`.
In particular `prose {"a":1} more prose` yields `{"a":1}` and a
```json fence around `[1,2,3]` yields `[1,2,3]`. -/
theorem extract_json_spec :
    (∀ s a b a2 b2, cleanPre s = a ++ '\x7b' :: b → '\x7b' ∉ a → '[' ∉ a →
        cleanPre s = a2 ++ '\x7d' :: b2 → '\x7d' ∉ b2 →
        clean_gemini_json s = ((cleanPre s).take (a2.length + 1)).drop a.length)
    ∧ (∀ s a b a2 b2, cleanPre s = a ++ '[' :: b → '[' ∉ a → '\x7b' ∉ a →
        cleanPre s = a2 ++ ']' :: b2 → ']' ∉ b2 →
        clean_gemini_json s = ((cleanPre s).take (a2.length + 1)).drop a.length)
    ∧ clean_gemini_json "prose \x7b\"a\":1\x7d more prose".toList = "\x7b\"a\":1\x7d".toList
    ∧ clean_gemini_json "```json\n[1,2,3]\n```".toList = "[1,2,3]".toList :=
  ⟨clean_gemini_json_object, clean_gemini_json_array, by decide, by decide⟩

theorem extract_json_spec_witness :
    clean_gemini_json "prose \x7b\"a\":1\x7d more prose".toList =
      ((cleanPre "prose \x7b\"a\":1\x7d more prose".toList).take
        ("prose \x7b\"a\":1".toList.length + 1)).drop "prose ".toList.length :=
  extract_json_spec.1 "prose \x7b\"a\":1\x7d more prose".toList
    "prose ".toList "\"a\":1\x7d more prose".toList
    "prose \x7b\"a\":1".toList " more prose".toList
    (by decide) (by decide) (by decide) (by decide) (by decide)

/-- C4 counterexample: the input `"``` x"` contains neither `\x7b` nor `[`
(so no payload start/end pair is found), yet the extractor returns `" x"`
-- the fence-stripped text -- and not the whitespace-trimmed original
input `"``` x"` unchanged, refuting the claim as stated. -/
theorem extract_json_no_payload_cex :
    ('\x7b' ∉ "``` x".toList ∧ '[' ∉ "``` x".toList)
    ∧ clean_gemini_json "``` x".toList ≠ pyStrip "``` x".toList := by decide

/-- C4 (amended): when no payload start/end pair is found, the extractor
returns the whitespace-trimmed input with any occurrences of the fence
markers ```json and ``` removed; when the trimmed input contains no fence
marker this is exactly the whitespace-trimmed input unchanged. -/
theorem extract_json_no_payload (s : List Char)
    (h : (payloadBounds (cleanPre s)).1 = -1 ∨ (payloadBounds (cleanPre s)).2 = -1) :
    clean_gemini_json s = cleanPre s
    ∧ (containsSub fence (pyStrip s) = false → clean_gemini_json s = pyStrip s) := by
  have hmain : clean_gemini_json s = cleanPre s := by
    unfold clean_gemini_json
    rw [if_neg]
    rintro ⟨hne1, hne2⟩
    rcases h with h | h
    · exact hne1 h
    · exact hne2 h
  refine ⟨hmain, fun hf => ?_⟩
  rw [hmain]
  unfold cleanPre
  rw [if_neg (by simp [hf])]

theorem extract_json_no_payload_witness :
    clean_gemini_json "hello".toList = pyStrip "hello".toList :=
  (extract_json_no_payload "hello".toList (by decide)).2 (by decide)

/-- C10: on the input `"\x7d \x7b"` -- whose last `\x7d` precedes its
first `\x7b` -- both a start and an end position are found (start 2,
end 0), the end precedes the start, and the slice `text[start:end+1]` is
the empty string, which is what the extractor returns. -/
theorem extract_json_empty_slice :
    clean_gemini_json ('\x7d' :: ' ' :: '\x7b' :: []) = []
    ∧ (payloadBounds (cleanPre ('\x7d' :: ' ' :: '\x7b' :: []))).1 ≠ -1
    ∧ (payloadBounds (cleanPre ('\x7d' :: ' ' :: '\x7b' :: []))).2 ≠ -1
    ∧ (payloadBounds (cleanPre ('\x7d' :: ' ' :: '\x7b' :: []))).2
        < (payloadBounds (cleanPre ('\x7d' :: ' ' :: '\x7b' :: []))).1 := by decide

/-- C3: the formatted final score is the two-decimal rendering of the
exact sum of +1.0 per correct, -0.1 per wrong and 0 per blank (carried in
tenths: `10*correct - wrong`); it may be negative and is not clamped.  An
all-blank submission over `n` questions yields score "0.00" with
`blank = n`, and the three questions of `qs3` graded
[correct, wrong, blank] yield score "0.90". -/
theorem score_formula :
    (∀ qs form, (submit_quiz qs form).score
        = formatScore (10 * ((submit_quiz qs form).correct : Int)
            - ((submit_quiz qs form).wrong : Int)))
    ∧ (∀ qs form, (∀ j, j < qs.length → lookupAns form j = []) →
        (submit_quiz qs form).blank = qs.length
        ∧ (submit_quiz qs form).score = "0.00".toList)
    ∧ ((submit_quiz qs3 form3).correct = 1 ∧ (submit_quiz qs3 form3).wrong = 1
        ∧ (submit_quiz qs3 form3).blank = 1 ∧ (submit_quiz qs3 form3).total = 3
        ∧ (submit_quiz qs3 form3).score = "0.90".toList)
    ∧ (submit_quiz (qMcqA :: []) formB).score = "-0.10".toList := by
  refine ⟨?_, ?_, by decide, by decide⟩
  · intro qs form
    simp only [submit_quiz]
    exact congrArg formatScore (gradeLoop_score form qs 0)
  · intro qs form h
    have hb := gradeLoop_all_blank form qs 0 (by simpa using h)
    simp only [submit_quiz]
    exact ⟨hb.2.2.1, by rw [hb.2.2.2]; rfl⟩

theorem score_formula_witness :
    (submit_quiz (qOpenParis :: []) (fun _ => none)).blank = (qOpenParis :: []).length
    ∧ (submit_quiz (qOpenParis :: []) (fun _ => none)).score = "0.00".toList :=
  score_formula.2.1 (qOpenParis :: []) (fun _ => none) (fun _ _ => rfl)

/-- C5: for every count in 1..50 the quiz generator's composition targets
satisfy `desired_mcq = ceil(count * 0.5)` -- which equals `(count+1)/2` --
and `desired_open = count - desired_mcq`, hence their sum is `count`. -/
theorem quiz_mix (count : Nat) (h1 : 1 ≤ count) (h2 : count ≤ 50) :
    desired_mcq count = (count + 1) / 2
    ∧ desired_mcq count + desired_open count = count := by
  have hm : desired_mcq count = (count + 1) / 2 := ceil_half count
  refine ⟨hm, ?_⟩
  unfold desired_open
  rw [hm]
  omega

theorem quiz_mix_witness :
    desired_mcq 3 = (3 + 1) / 2 ∧ desired_mcq 3 + desired_open 3 = 3 :=
  quiz_mix 3 (by decide) (by decide)

/-- C6 counterexample: a completion that parses as the JSON number 5 has
a top-level shape that is neither an array nor an object with a
`questions` key, yet it fails with a `TypeError` (raised by
`"questions" in parsed` on a non-container), not with the
`UnexpectedFormatError` RuntimeError; the claim that every other
top-level shape fails with `UnexpectedFormatError` is therefore false. -/
theorem quiz_shape_cex :
    generate_quiz_logic [] 1 (Except.ok (Json.num 5))
        = Except.error (GenErr.generationError PyErr.typeError)
    ∧ PyErr.typeError ≠ PyErr.unexpectedFormat :=
  ⟨rfl, by decide⟩

/-- C6 (amended): a bare array is returned as the question list and an
object containing a `questions` key has that key's value returned; every
other top-level shape fails, surfaced as a `GenerationError` -- with
`UnexpectedFormatError` for an object lacking the key (or a string not
containing "questions" as a substring), and with a `TypeError` for the
remaining shapes (strings containing "questions", numbers, booleans,
null). -/
theorem quiz_shape_amended :
    (∀ text n xs, 0 < n →
        generate_quiz_logic text n (Except.ok (Json.arr xs)) = Except.ok (Json.arr xs))
    ∧ (∀ text n kvs v, 0 < n → objGet qKey kvs = some v →
        generate_quiz_logic text n (Except.ok (Json.obj kvs)) = Except.ok v)
    ∧ (∀ text n kvs, 0 < n → objGet qKey kvs = none →
        generate_quiz_logic text n (Except.ok (Json.obj kvs))
          = Except.error (GenErr.generationError PyErr.unexpectedFormat))
    ∧ (∀ text n str1, 0 < n → containsSub qKey str1 = false →
        generate_quiz_logic text n (Except.ok (Json.str str1))
          = Except.error (GenErr.generationError PyErr.unexpectedFormat))
    ∧ (∀ text n str1, 0 < n → containsSub qKey str1 = true →
        generate_quiz_logic text n (Except.ok (Json.str str1))
          = Except.error (GenErr.generationError PyErr.typeError))
    ∧ (∀ text n m, 0 < n → generate_quiz_logic text n (Except.ok (Json.num m))
          = Except.error (GenErr.generationError PyErr.typeError))
    ∧ (∀ text n b, 0 < n → generate_quiz_logic text n (Except.ok (Json.bool b))
          = Except.error (GenErr.generationError PyErr.typeError))
    ∧ (∀ text n, 0 < n → generate_quiz_logic text n (Except.ok Json.null)
          = Except.error (GenErr.generationError PyErr.typeError)) := by
  refine ⟨?_, ?_, ?_, ?_, ?_, ?_, ?_, ?_⟩
  · intro text n xs hn
    unfold generate_quiz_logic
    rw [if_neg (by omega)]
    rfl
  · intro text n kvs v hn hv
    unfold generate_quiz_logic
    rw [if_neg (by omega)]
    simp [quiz_shape, hv]
  · intro text n kvs hn hv
    unfold generate_quiz_logic
    rw [if_neg (by omega)]
    simp [quiz_shape, hv]
  · intro text n str1 hn hs
    unfold generate_quiz_logic
    rw [if_neg (by omega)]
    simp [quiz_shape, hs]
  · intro text n str1 hn hs
    unfold generate_quiz_logic
    rw [if_neg (by omega)]
    simp [quiz_shape, hs]
  · intro text n m hn
    unfold generate_quiz_logic
    rw [if_neg (by omega)]
    rfl
  · intro text n b hn
    unfold generate_quiz_logic
    rw [if_neg (by omega)]
    rfl
  · intro text n hn
    unfold generate_quiz_logic
    rw [if_neg (by omega)]
    rfl

theorem quiz_shape_amended_witness :
    generate_quiz_logic [] 1 (Except.ok (Json.arr []))
      = Except.ok (Json.arr []) :=
  quiz_shape_amended.1 [] 1 [] (by decide)

/-- C7: for every source text, for every count at most 0 the generator
fails with `InvalidArgument` independently of the completion/parse
outcome (the check precedes the completion call), and for count > 0 this
validation never fails. -/
theorem count_validation :
    (∀ (text : List Char) (n : Int) parsed, n ≤ 0 →
        generate_quiz_logic text n parsed = Except.error GenErr.invalidArgument)
    ∧ (∀ (text : List Char) (n : Int) p1 p2, n ≤ 0 →
        generate_quiz_logic text n p1 = generate_quiz_logic text n p2)
    ∧ (∀ (text : List Char) (n : Int) parsed, 0 < n →
        generate_quiz_logic text n parsed ≠ Except.error GenErr.invalidArgument) := by
  refine ⟨?_, ?_, ?_⟩
  · intro text n parsed hn
    unfold generate_quiz_logic
    rw [if_pos hn]
  · intro text n p1 p2 hn
    unfold generate_quiz_logic
    rw [if_pos hn, if_pos hn]
  · intro text n parsed hn
    unfold generate_quiz_logic
    rw [if_neg (by omega)]
    cases parsed with
    | error e => simp
    | ok p =>
      cases hq : quiz_shape p with
      | ok v => simp [hq]
      | error e => simp [hq]

theorem count_validation_witness :
    generate_quiz_logic [] 0 (Except.ok Json.null) = Except.error GenErr.invalidArgument
    ∧ generate_quiz_logic [] (-5) (Except.ok Json.null) = Except.error GenErr.invalidArgument
    ∧ generate_quiz_logic [] 1 (Except.ok Json.null) ≠ Except.error GenErr.invalidArgument :=
  ⟨count_validation.1 [] 0 (Except.ok Json.null) (by decide),
   count_validation.1 [] (-5) (Except.ok Json.null) (by decide),
   count_validation.2.2 [] 1 (Except.ok Json.null) (by decide)⟩

/-- C8: for every question list and submission the Result satisfies
`correct + wrong + blank = total` with `total` the number of questions,
and `details` carries one entry per question in original order holding
the question text, the trimmed submitted answer, the canonical answer and
the outcome. -/
theorem result_invariants (qs : List Question) (form : Nat → Option (List Char)) :
    (submit_quiz qs form).correct + (submit_quiz qs form).wrong + (submit_quiz qs form).blank
        = (submit_quiz qs form).total
    ∧ (submit_quiz qs form).total = qs.length
    ∧ (submit_quiz qs form).details.length = qs.length
    ∧ (∀ i q, qs.get? i = some q →
        (submit_quiz qs form).details.get? i =
          some ⟨q.text, lookupAns form i, q.answer, outcomeOf q (lookupAns form i)⟩) := by
  refine ⟨gradeLoop_counts form qs 0, rfl, gradeLoop_details_len form qs 0, ?_⟩
  intro i q h
  have h2 := gradeLoop_details_get form qs 0 i q h
  simpa [submit_quiz, mkDetail] using h2

theorem result_invariants_witness :
    (submit_quiz qs3 form3).details.get? 0 =
      some ⟨"Q1".toList, lookupAns form3 0, "A".toList,
        outcomeOf (⟨"Q1".toList, QType.mcq, some ("A".toList :: []), "A".toList⟩ : Question)
          (lookupAns form3 0)⟩ :=
  (result_invariants qs3 form3).2.2.2 0
    ⟨"Q1".toList, QType.mcq, some ("A".toList :: []), "A".toList⟩ rfl

/-- C9: the Deck topic label is the first 50 characters of the source
text with each newline replaced by a space, suffixed with "...". -/
theorem deck_topic_spec (s : List Char) :
    deck_topic s = ((s.take 50).map fun c => if c = '\n' then ' ' else c) ++ "...".toList := by
  unfold deck_topic
  rw [pyReplace_single]

end WebApp
